import Mathlib

/-!
Verification of the SailingRegatta race engine (client simulation core).

The definitions below are shallow embeddings, over `ℚ`, of the functions of
the repository that the verified properties concern:

* the wind-shadow test `isInTurbulenceZone` and the per-boat wind-efficiency
  pipeline (band table, shadow penalty, puff boost) of
  `client/src/components/game/SimpleGameCanvas.tsx`;
* the boat-boat collision resolution and the canvas boundary clamp of the
  same file, and its per-boat race-stage transition checks;
* the store actions `finishRace` of `client/src/lib/stores/useRace.tsx` and
  `updateWindDirection` of `client/src/lib/stores/useWind.tsx`.

The source computes Euclidean distances with `Math.sqrt`.  Since the
distance enters the formulas linearly, each embedding takes the distance as
an explicit argument `d` constrained by the hypotheses `0 ≤ d` and
`d * d = distSq p q`; everything else is translated literally.
-/

structure Point where
  x : ℚ
  y : ℚ
deriving DecidableEq, Repr

/-- Squared Euclidean distance between two points; the source computes
`Math.sqrt` of this quantity. -/
def distSq (p q : Point) : ℚ :=
  (p.x - q.x) ^ 2 + (p.y - q.y) ^ 2

/-! ### Wind shadow (turbulence) test

Embedding of `isInTurbulenceZone` (SimpleGameCanvas.tsx, lines 120-156).
The source closes over the `singleBoatMode` setting; here it is the first
argument.  The blocking boat rotation argument is kept even though the body
never reads it, exactly as in the source, and no wind-direction input exists
at all (the comment in the source hard-codes wind from the north). -/
def isInTurbulenceZone (singleBoatMode : Bool) (boatPos blockingBoatPos : Point)
    (blockingBoatRotation : ℚ) (shadowLength : ℚ) (distance : ℚ) : Bool :=
  if singleBoatMode then false
  else if boatPos.y ≤ blockingBoatPos.y then false
  else if distance > shadowLength then false
  else
    -- shadowWidth = shadowLength * 0.5; widthAtDistance = (distance / shadowLength) * shadowWidth
    |boatPos.x - blockingBoatPos.x| < distance / shadowLength * (shadowLength * (1 / 2))

/-! ### Wind efficiency pipeline

Embedding of the boat-1 speed computation block of SimpleGameCanvas.tsx
(lines 802-917); the blocks for boats 2-4 are verbatim copies. -/

/-- Relative wind angle: `abs(windDirection - boatDirection)` folded into
the range 0-180 (port and starboard are symmetrical). -/
def relativeWindAngle (windDirection boatDirection : ℚ) : ℚ :=
  let a := |windDirection - boatDirection|
  if a > 180 then 360 - a else a

/-- Five-band wind-angle efficiency table of the primary simulation loop. -/
def windEfficiencyBand (relativeAngle : ℚ) : ℚ :=
  if relativeAngle < 30 then 0          -- no-go zone ("in irons")
  else if relativeAngle < 60 then 1 / 2 -- close hauled
  else if relativeAngle < 120 then 1    -- beam reach
  else if relativeAngle < 150 then 4 / 5 -- broad reach
  else 3 / 5                             -- running

/-- Wind-shadow penalty: `windEfficiency = Math.max(0.1, windEfficiency - 0.2)`
when the boat is in another boat's shadow. -/
def applyWindShadow (isInWindShadow : Bool) (eff : ℚ) : ℚ :=
  if isInWindShadow then max (1 / 10) (eff - 1 / 5) else eff

/-- Puff boost: the speed boost of the first containing puff is added, but
only when the boat is not in irons (`relativeAngle >= 30`). -/
def applyPuffBoost (isInWindPuff : Bool) (speedBoost relativeAngle eff : ℚ) : ℚ :=
  if isInWindPuff ∧ relativeAngle ≥ 30 then eff + speedBoost else eff

/-- Wind efficiency of a boat: band table, then shadow penalty, then puff
boost, in source order. -/
def windEfficiency (windDirection boatDirection : ℚ) (inShadow inPuff : Bool)
    (speedBoost : ℚ) : ℚ :=
  let rel := relativeWindAngle windDirection boatDirection
  applyPuffBoost inPuff speedBoost rel (applyWindShadow inShadow (windEfficiencyBand rel))

/-- Maximum speed: `const maxSpeed = 50 * windEfficiency`. -/
def maxSpeed (windDirection boatDirection : ℚ) (inShadow inPuff : Bool)
    (speedBoost : ℚ) : ℚ :=
  50 * windEfficiency windDirection boatDirection inShadow inPuff speedBoost

/-! ### Boat-boat collision resolution

Embedding of the pairwise boat collision handling of SimpleGameCanvas.tsx
(lines 1472-1548).  The source computes `collisionAngle = atan2(dy, dx)` and
pushes along `(cos collisionAngle, sin collisionAngle)`; for `d > 0` that
unit vector is `(dx / d, dy / d)`, and `Math.atan2(0, 0) = 0` makes it
`(1, 0)` for coincident centers. -/

/-- Push distance used by every collision in the engine:
`Math.max((radiusSum - distance) * 0.75, boatRadius * 0.25)`; for a
boat-boat pair the radius sum is `boatRadius * 2`. -/
def pushDistance (boatRadius distance : ℚ) : ℚ :=
  max ((boatRadius * 2 - distance) * (3 / 4)) (boatRadius * (1 / 4))

/-- Cosine of `Math.atan2(dy, dx)` expressed through the distance `d`. -/
def cosAtan2 (dx : ℚ) (d : ℚ) : ℚ :=
  if d = 0 then 1 else dx / d

/-- Sine of `Math.atan2(dy, dx)` expressed through the distance `d`. -/
def sinAtan2 (dy : ℚ) (d : ℚ) : ℚ :=
  if d = 0 then 0 else dy / d

structure ResolvedPair where
  p1 : Point
  p2 : Point
  s1 : ℚ
  s2 : ℚ
deriving DecidableEq, Repr

/-- Resolution of one overlapping boat pair: boat 1 is pushed by
`pushDistance` opposite the line of centers, boat 2 along it, and both
speeds are damped by the factor `0.95`. -/
def resolveBoatCollision (boatRadius : ℚ) (p1 p2 : Point) (s1 s2 : ℚ)
    (distance : ℚ) : ResolvedPair :=
  let push := pushDistance boatRadius distance
  let pushX := cosAtan2 (p2.x - p1.x) distance * push
  let pushY := sinAtan2 (p2.y - p1.y) distance * push
  { p1 := ⟨p1.x - pushX, p1.y - pushY⟩
    p2 := ⟨p2.x + pushX, p2.y + pushY⟩
    s1 := s1 * (19 / 20)
    s2 := s2 * (19 / 20) }

/-! ### Canvas boundary clamp

Embedding of the per-boat boundary constraint of SimpleGameCanvas.tsx
(lines 931-948 for boat 1, repeated at 1360-1400 for boats 2-4). -/

/-- Boundary margin used by the canvas: `const boundaryMargin = boatRadius * 2`. -/
def boundaryMargin (boatRadius : ℚ) : ℚ :=
  boatRadius * 2

/-- Componentwise clamp of one coordinate into `[margin, limit - margin]`. -/
def clampCoord (margin limit v : ℚ) : ℚ :=
  if v < margin then margin
  else if v > limit - margin then limit - margin
  else v

/-- Candidate position after one kinematic integration step: previous
position plus the heading velocity displacement plus the current
displacement (the source computes these with `sin`/`cos`; they enter here
as the already-integrated displacement components). -/
def candidatePos (p : Point) (vx vy currentVx currentVy : ℚ) : Point :=
  ⟨p.x + vx + currentVx, p.y + vy + currentVy⟩

/-- Boundary constraint applied to a candidate position. -/
def applyBoundary (margin width height : ℚ) (p : Point) : Point :=
  ⟨clampCoord margin width p.x, clampCoord margin height p.y⟩

/-! ### Wind direction update

Embedding of `updateWindDirection` (useWind.tsx, lines 201-311).  The
random shift magnitude is venue-specific; here it is an arbitrary rational
argument, so the containment theorems cover every venue and every draw. -/

/-- Truncation toward zero, as the JavaScript `%` operator uses. -/
def truncQ (x : ℚ) : ℤ :=
  if 0 ≤ x then ⌊x⌋ else ⌈x⌉

/-- JavaScript remainder `x % 360` (sign of the dividend). -/
def jsMod360 (x : ℚ) : ℚ :=
  x - 360 * (truncQ (x / 360) : ℚ)

/-- Negative-angle fixup of the source: `if (newDirection < 0) newDirection += 360`. -/
def normalize360 (nd : ℚ) : ℚ :=
  if nd < 0 then nd + 360 else nd

/-- Range cap of the source: exact 0/360 is normalized to 0; east side
(0, 180] is capped at `range`; the west side is capped at `360 - range`. -/
def capToRange (range nd : ℚ) : ℚ :=
  if nd = 0 ∨ nd = 360 then 0
  else if 0 < nd ∧ nd ≤ 180 then
    if nd > range then range else nd
  else
    if nd < 360 ∧ nd > 180 ∧ nd < 360 - range then 360 - range else nd

/-- One `updateWindDirection` step at venue range `range`, applied to the
stored direction `dir` with the drawn shift `shift`: normalize
`(dir + shift) % 360` into `[0, 360)`, then cap into the legal band. -/
def updateWindDirection (range dir shift : ℚ) : ℚ :=
  capToRange range (normalize360 (jsMod360 (dir + shift)))

/-- Iterated wind-direction updates over a list of drawn shifts. -/
def updateWindDirectionMany (range dir : ℚ) (shifts : List ℚ) : ℚ :=
  shifts.foldl (updateWindDirection range) dir

/-- Legal wind directions at venue range `range`:
`[0, range] ∪ [360 - range, 360)`. -/
def legalWindDirection (range dir : ℚ) : Prop :=
  (0 ≤ dir ∧ dir ≤ range) ∨ (360 - range ≤ dir ∧ dir < 360)

instance (range dir : ℚ) : Decidable (legalWindDirection range dir) := by
  unfold legalWindDirection; infer_instance

/-! ### Race store (useRace.tsx)

Shallow embedding of the race state held by the `useRace` zustand store and
of its `finishRace` action (lines 231-350).  Boat ids are the strings
"boat-1".."boat-4" in the source and the only ids `initializeRace` ever
creates; they are embedded as the four-constructor type `BoatId`, and
`parseInt(boatId.split('-')[1])` becomes `boatNumber`.  Boat fields that
`finishRace` never reads (position, rotation, tack, sailPosition,
lastCheckpoint, isLocalPlayer) are carried by the canvas embedding instead
and omitted here. -/

inductive RaceStage where
  | notStarted
  | startLeg
  | upwindLeg
  | downwindLeg
  | secondUpwindLeg
  | finishLeg
  | finished
deriving DecidableEq, Repr

/-- Index of a stage in the strict total order of §3 of the specification. -/
def stageIdx : RaceStage → Nat
  | .notStarted => 0
  | .startLeg => 1
  | .upwindLeg => 2
  | .downwindLeg => 3
  | .secondUpwindLeg => 4
  | .finishLeg => 5
  | .finished => 6

/-- Immediate successor stage (Finished is terminal). -/
def succStage : RaceStage → RaceStage
  | .notStarted => .startLeg
  | .startLeg => .upwindLeg
  | .upwindLeg => .downwindLeg
  | .downwindLeg => .secondUpwindLeg
  | .secondUpwindLeg => .finishLeg
  | .finishLeg => .finished
  | .finished => .finished

inductive BoatId where
  | b1
  | b2
  | b3
  | b4
deriving DecidableEq, Repr

/-- Number extracted from the id string "boat-N". -/
def boatNumber : BoatId → Nat
  | .b1 => 1
  | .b2 => 2
  | .b3 => 3
  | .b4 => 4

structure Boat where
  id : BoatId
  userId : Nat
  username : String
deriving DecidableEq, Repr

structure RaceResult where
  userId : Nat
  username : String
  finishTime : ℚ
  position : Nat
  boatNumber : Nat
deriving DecidableEq, Repr

inductive RacePhase where
  | preStart
  | starting
  | racing
  | finished
deriving DecidableEq, Repr

structure RaceState where
  phase : RacePhase
  boats : List Boat
  results : List RaceResult
  boat1Stage : RaceStage
  boat2Stage : RaceStage
  boat3Stage : RaceStage
  boat4Stage : RaceStage
deriving DecidableEq, Repr

/-- Stage field selected by boat id, mirroring the id-keyed if/else chains
of the source. -/
def getStage (s : RaceState) : BoatId → RaceStage
  | .b1 => s.boat1Stage
  | .b2 => s.boat2Stage
  | .b3 => s.boat3Stage
  | .b4 => s.boat4Stage

/-- Stage field update selected by boat id. -/
def setStage (s : RaceState) (b : BoatId) (st : RaceStage) : RaceState :=
  match b with
  | .b1 => { s with boat1Stage := st }
  | .b2 => { s with boat2Stage := st }
  | .b3 => { s with boat3Stage := st }
  | .b4 => { s with boat4Stage := st }

/-- Ordering used to sort results: ascending finish time, as the source
comparator `(a, b) => a.finishTime - b.finishTime`. -/
def resultLE (a b : RaceResult) : Prop :=
  a.finishTime ≤ b.finishTime

instance : DecidableRel resultLE :=
  fun a b => inferInstanceAs (Decidable (a.finishTime ≤ b.finishTime))

instance : IsTotal RaceResult resultLE :=
  ⟨fun a b => le_total a.finishTime b.finishTime⟩

instance : IsTrans RaceResult resultLE :=
  ⟨fun _ _ _ h h' => le_trans h h'⟩

/-- Sorting of the result list by finish time (fastest first). -/
def sortResults (l : List RaceResult) : List RaceResult :=
  List.insertionSort resultLE l

/-- Position reassignment from index `n` on: the source maps
`(result, index) => { ...result, position: index + 1 }`. -/
def assignPositionsFrom (n : Nat) : List RaceResult → List RaceResult
  | [] => []
  | r :: rs => { r with position := n } :: assignPositionsFrom (n + 1) rs

/-- One-based position reassignment over the whole sorted result list. -/
def assignPositions (l : List RaceResult) : List RaceResult :=
  assignPositionsFrom 1 l

/-- Embedding of the `finishRace(boatId, time)` store action. -/
def finishRace (boatId : BoatId) (time : ℚ) (s : RaceState) : RaceState :=
  match s.boats.find? (fun b => b.id == boatId) with
  | none => s -- unknown boat: logged and ignored
  | some boat =>
    let n := boatNumber boatId
    -- duplicate-result guard: skip if this (userId, boatNumber) already finished
    if s.results.any (fun r => r.userId == boat.userId && r.boatNumber == n) then s
    else
      let st := getStage s boatId
      let hasCompletedAllStages := st == .finishLeg || st == .finished
      if !hasCompletedAllStages then
        -- still mark the boat Finished, but record no result
        setStage s boatId .finished
      else
        let allResults := s.results ++
          [{ userId := boat.userId, username := boat.username, finishTime := time,
             position := 0, boatNumber := n }]
        let updatedResults := assignPositions (sortResults allResults)
        let s1 := { setStage s boatId .finished with results := updatedResults }
        let activeBoatCount := s.boats.length
        let finishedBoatsCount := s.results.length + 1
        if finishedBoatsCount ≥ activeBoatCount then { s1 with phase := .finished } else s1

/-! ### Per-tick stage transition checks (SimpleGameCanvas.tsx, draw loop)

Embedding of the racing-phase stage tracking of the draw loop (lines
2097-2935): the Not Started force-set, then the five guarded transition
checks, each compared against the stage snapshot taken after the force-set,
so at most one geometric transition fires per tick.  The geometric
predicates are translated literally from the boat-1 block; boats 2-4 use
verbatim copies of the same code. -/

structure StartLine where
  x1 : ℚ
  y1 : ℚ
  x2 : ℚ
  y2 : ℚ
deriving DecidableEq, Repr

structure Mark where
  x : ℚ
  y : ℚ
deriving DecidableEq, Repr

/-- Start-line crossing test: near the line in Y, between the posts with a
boat-radius margin in X, and heading in the generous north arc. -/
def startCrossCheck (boatRadius : ℚ) (line : StartLine) (pos : Point) (rot : ℚ) : Bool :=
  (|pos.y - line.y1| < boatRadius * 3) &&
    (pos.x ≥ line.x1 - boatRadius && pos.x ≤ line.x2 + boatRadius) &&
    (rot > 260 || rot < 100)

/-- Windward (top) mark rounding test: at or past the mark in Y, within two
boat radii of the mark in X. -/
def topMarkCheck (boatRadius : ℚ) (m : Mark) (pos : Point) : Bool :=
  pos.y ≤ m.y && |pos.x - m.x| ≤ boatRadius * 2

/-- Leeward (bottom) mark rounding test, symmetric to the top mark. -/
def bottomMarkCheck (boatRadius : ℚ) (m : Mark) (pos : Point) : Bool :=
  pos.y ≥ m.y && |pos.x - m.x| ≤ boatRadius * 2

/-- Finish-line test: between the posts in X and within 20 px of the line
in Y (the heading check is computed in the source for diagnostics only). -/
def finishCheck (line : StartLine) (pos : Point) : Bool :=
  (pos.x ≥ line.x1 && pos.x ≤ line.x2) && |pos.y - line.y1| < 20

/-- One racing-phase tick of the stage tracker for a single boat:
force-set Not Started to Start Leg, then run the transition check guarded
by the snapshot stage.  `finishedRef` is the boatNFinishedRef flag that
suppresses a second finish detection. -/
def stageTick (boatRadius : ℚ) (line : StartLine) (topMark bottomMark : Mark)
    (pos : Point) (rot : ℚ) (finishedRef : Bool) (st : RaceStage) : RaceStage :=
  let st0 := if st = .notStarted then .startLeg else st
  match st0 with
  | .startLeg => if startCrossCheck boatRadius line pos rot then .upwindLeg else st0
  | .upwindLeg => if topMarkCheck boatRadius topMark pos then .downwindLeg else st0
  | .downwindLeg => if bottomMarkCheck boatRadius bottomMark pos then .secondUpwindLeg else st0
  | .secondUpwindLeg => if topMarkCheck boatRadius topMark pos then .finishLeg else st0
  | .finishLeg => if !finishedRef && finishCheck line pos then .finished else st0
  | other => other

/-- Atomic events of the race progression: a per-tick stage-transition
check for one boat, or a `finishRace` call.  A real tick performs one tick
event per active boat followed by the finish calls it triggers; any such
run is a sequence of these events. -/
inductive RaceEvent where
  | tick (b : BoatId) (boatRadius : ℚ) (line : StartLine) (topMark bottomMark : Mark)
      (pos : Point) (rot : ℚ) (finishedRef : Bool)
  | finish (b : BoatId) (time : ℚ)

/-- Effect of one event on the race state. -/
def applyEvent (s : RaceState) : RaceEvent → RaceState
  | .tick b r line top bottom pos rot fRef =>
      setStage s b (stageTick r line top bottom pos rot fRef (getStage s b))
  | .finish b t => finishRace b t s

/-! ## Theorems -/

/-- C9: the wind-shadow test is independent of the blocking boat's rotation
argument (and consults no wind direction at all); outside single-boat mode
it holds exactly when the tested boat is strictly south of the blocker, the
center-to-center distance is at most `shadowLength`, and the lateral offset
is below `(distance / shadowLength) * (shadowLength * 0.5)`; in single-boat
mode it is false for every input. -/
theorem isInTurbulenceZone_spec (boatPos blockingBoatPos : Point)
    (rot rot' shadowLength d : ℚ)
    (hd : 0 ≤ d) (hdist : d * d = distSq boatPos blockingBoatPos) :
    (∀ sbm : Bool, isInTurbulenceZone sbm boatPos blockingBoatPos rot shadowLength d =
      isInTurbulenceZone sbm boatPos blockingBoatPos rot' shadowLength d)
    ∧ (isInTurbulenceZone false boatPos blockingBoatPos rot shadowLength d = true ↔
        blockingBoatPos.y < boatPos.y ∧ d ≤ shadowLength ∧
          |boatPos.x - blockingBoatPos.x| < d / shadowLength * (shadowLength * (1 / 2)))
    ∧ isInTurbulenceZone true boatPos blockingBoatPos rot shadowLength d = false := by
  refine ⟨fun _ => rfl, ?_, rfl⟩
  have hbody : isInTurbulenceZone false boatPos blockingBoatPos rot shadowLength d =
      (if boatPos.y ≤ blockingBoatPos.y then false
       else if d > shadowLength then false
       else decide (|boatPos.x - blockingBoatPos.x| <
         d / shadowLength * (shadowLength * (1 / 2)))) := by
    simp [isInTurbulenceZone]
  rw [hbody]
  split_ifs with hy hdl
  · simp only [Bool.false_eq_true, false_iff]
    rintro ⟨h, -, -⟩
    exact absurd h (not_lt.mpr hy)
  · simp only [Bool.false_eq_true, false_iff]
    rintro ⟨-, h, -⟩
    exact absurd h (not_le.mpr hdl)
  · simp only [decide_eq_true_eq]
    exact ⟨fun h => ⟨not_le.mp hy, not_lt.mp hdl, h⟩, fun h => h.2.2⟩

/-- C9 witness: the characterization instantiated at a concrete geometry
with an exactly representable distance (3-4-5 triangle). -/
theorem isInTurbulenceZone_spec_witness :
    (0 : ℚ) ≤ 5 ∧ (5 : ℚ) * 5 = distSq ⟨3, 4⟩ ⟨0, 0⟩ ∧
      (isInTurbulenceZone false ⟨3, 4⟩ ⟨0, 0⟩ 0 12 5 = true ↔
        (0 : ℚ) < 4 ∧ (5 : ℚ) ≤ 12 ∧ |(3 : ℚ) - 0| < 5 / 12 * (12 * (1 / 2))) :=
  ⟨by norm_num, by norm_num [distSq],
    (isInTurbulenceZone_spec ⟨3, 4⟩ ⟨0, 0⟩ 0 90 12 5 (by norm_num)
      (by norm_num [distSq])).2.1⟩

/-- C4: a shadowed boat's efficiency is replaced by `max(0.1, eff - 0.2)`;
in particular a shadowed boat in irons (band efficiency 0) ends with
efficiency 0.1 and the positive maximum speed `50 * 0.1`, whether or not it
sits in a puff. -/
theorem windShadow_floor_in_irons (w b boost : ℚ) (inPuff : Bool)
    (hrel : relativeWindAngle w b < 30) :
    (∀ eff : ℚ, applyWindShadow true eff = max (1 / 10) (eff - 1 / 5))
    ∧ windEfficiency w b true inPuff boost = 1 / 10
    ∧ maxSpeed w b true inPuff boost = 50 * (1 / 10)
    ∧ 0 < maxSpeed w b true inPuff boost := by
  have hnot : ¬(30 : ℚ) ≤ relativeWindAngle w b := not_le.mpr hrel
  have hband : windEfficiencyBand (relativeWindAngle w b) = 0 := if_pos hrel
  have hmax : max (1 / 10 : ℚ) (0 - 1 / 5) = 1 / 10 := max_eq_left (by norm_num)
  have heff : windEfficiency w b true inPuff boost = 1 / 10 := by
    simp only [windEfficiency, hband, applyWindShadow, if_true, hmax, applyPuffBoost]
    rw [if_neg (by simp [hnot])]
  refine ⟨fun _ => rfl, heff, by rw [maxSpeed, heff], ?_⟩
  rw [maxSpeed, heff]
  norm_num

/-- C4 witness: a boat pointing dead into the wind, shadowed and inside a
puff, still reaches maximum speed 5. -/
theorem windShadow_floor_in_irons_witness :
    relativeWindAngle 0 0 < 30 ∧ windEfficiency 0 0 true true 1 = 1 / 10 :=
  ⟨by norm_num [relativeWindAngle], (windShadow_floor_in_irons 0 0 1 true
    (by norm_num [relativeWindAngle])).2.1⟩

/-- C3 counterexample: a boat in irons (relative wind angle 0 < 30) that is
inside a puff AND in another boat's wind shadow has maximum speed 5, not 0:
clamping the shadowed efficiency from below at 0.1 defeats the no-go zone. -/
theorem inIrons_shadowed_maxSpeed_ne_zero :
    relativeWindAngle 0 0 < 30 ∧ maxSpeed 0 0 true true (1 / 2) = 5 ∧
      maxSpeed 0 0 true true (1 / 2) ≠ 0 := by
  refine ⟨by norm_num [relativeWindAngle], ?_, ?_⟩ <;>
    norm_num [maxSpeed, windEfficiency, relativeWindAngle, windEfficiencyBand,
      applyWindShadow, applyPuffBoost]

/-- C3 amended: for a boat whose relative wind angle is below 30, the band
efficiency is 0 and a puff boost is never added, so absent the wind-shadow
penalty the efficiency-scaled maximum speed is 0 even inside a puff. -/
theorem no_go_zone_zero_speed (w b boost : ℚ) (inPuff : Bool)
    (hrel : relativeWindAngle w b < 30) :
    windEfficiencyBand (relativeWindAngle w b) = 0
    ∧ (∀ eff : ℚ, applyPuffBoost inPuff boost (relativeWindAngle w b) eff = eff)
    ∧ maxSpeed w b false inPuff boost = 0 := by
  have hnot : ¬(30 : ℚ) ≤ relativeWindAngle w b := not_le.mpr hrel
  have hband : windEfficiencyBand (relativeWindAngle w b) = 0 := if_pos hrel
  have hpuff : ∀ eff : ℚ, applyPuffBoost inPuff boost (relativeWindAngle w b) eff = eff := by
    intro eff
    simp [applyPuffBoost, hnot]
  refine ⟨hband, hpuff, ?_⟩
  simp [maxSpeed, windEfficiency, applyWindShadow, hpuff, hband]

/-- C3 amended witness: a boat 10 degrees off the wind, inside a puff but
unshadowed, has maximum speed 0. -/
theorem no_go_zone_zero_speed_witness :
    relativeWindAngle 0 10 < 30 ∧ maxSpeed 0 10 false true 2 = 0 :=
  ⟨by norm_num [relativeWindAngle], (no_go_zone_zero_speed 0 10 2 true
    (by norm_num [relativeWindAngle])).2.2⟩

/-- Helper for C10: a clamped coordinate lies inside `[margin, limit - margin]`
whenever that interval is non-empty. -/
theorem clampCoord_mem (margin limit v : ℚ) (h : margin ≤ limit - margin) :
    margin ≤ clampCoord margin limit v ∧ clampCoord margin limit v ≤ limit - margin := by
  unfold clampCoord
  split_ifs with h1 h2
  · exact ⟨le_refl _, h⟩
  · exact ⟨h, le_refl _⟩
  · exact ⟨not_lt.mp h1, not_lt.mp h2⟩

/-- C10: the boundary constraint clamps every candidate position — previous
position plus heading displacement plus current displacement — into the
rectangle `[2r, width - 2r] × [2r, height - 2r]`, so the kinematic update
alone never places a boat outside the canvas bounds. -/
theorem boundary_clamp_in_bounds (r width height vx vy cvx cvy : ℚ) (p : Point)
    (hw : boundaryMargin r ≤ width - boundaryMargin r)
    (hh : boundaryMargin r ≤ height - boundaryMargin r) :
    boundaryMargin r ≤
        (applyBoundary (boundaryMargin r) width height (candidatePos p vx vy cvx cvy)).x
    ∧ (applyBoundary (boundaryMargin r) width height (candidatePos p vx vy cvx cvy)).x ≤
        width - boundaryMargin r
    ∧ boundaryMargin r ≤
        (applyBoundary (boundaryMargin r) width height (candidatePos p vx vy cvx cvy)).y
    ∧ (applyBoundary (boundaryMargin r) width height (candidatePos p vx vy cvx cvy)).y ≤
        height - boundaryMargin r := by
  have hx := clampCoord_mem (boundaryMargin r) width (candidatePos p vx vy cvx cvy).x hw
  have hy := clampCoord_mem (boundaryMargin r) height (candidatePos p vx vy cvx cvy).y hh
  exact ⟨hx.1, hx.2, hy.1, hy.2⟩

/-- C10 witness: a candidate position far outside a 1000 × 800 canvas with
boat radius 10 is clamped back inside the margin rectangle. -/
theorem boundary_clamp_in_bounds_witness :
    boundaryMargin 10 ≤ (1000 : ℚ) - boundaryMargin 10 ∧
      boundaryMargin 10 ≤ (800 : ℚ) - boundaryMargin 10 ∧
      boundaryMargin 10 ≤
        (applyBoundary (boundaryMargin 10) 1000 800 (candidatePos ⟨-50, 900⟩ 3 4 1 2)).x :=
  ⟨by norm_num [boundaryMargin], by norm_num [boundaryMargin],
    (boundary_clamp_in_bounds 10 1000 800 3 4 1 2 ⟨-50, 900⟩
      (by norm_num [boundaryMargin]) (by norm_num [boundaryMargin])).1⟩

/-- C5: resolving an overlapping boat pair (distance below the radius sum
`2r`) pushes the boats apart along the line of centers so that the new
center distance is exactly the old distance plus `2 * pushDistance`, which
is at least `2r` — no overlap remains — and multiplies both speeds by 0.95. -/
theorem boat_collision_separates (r : ℚ) (p1 p2 : Point) (s1 s2 d : ℚ)
    (hr : 0 < r) (hd : 0 ≤ d) (hdist : d * d = distSq p1 p2) (hcol : d < r * 2) :
    distSq (resolveBoatCollision r p1 p2 s1 s2 d).p1 (resolveBoatCollision r p1 p2 s1 s2 d).p2 =
        (d + 2 * pushDistance r d) ^ 2
    ∧ r * 2 ≤ d + 2 * pushDistance r d
    ∧ (r * 2) ^ 2 ≤
        distSq (resolveBoatCollision r p1 p2 s1 s2 d).p1 (resolveBoatCollision r p1 p2 s1 s2 d).p2
    ∧ (resolveBoatCollision r p1 p2 s1 s2 d).s1 = s1 * (19 / 20)
    ∧ (resolveBoatCollision r p1 p2 s1 s2 d).s2 = s2 * (19 / 20) := by
  have hpush : (r * 2 - d) * (3 / 4) ≤ pushDistance r d := le_max_left _ _
  have hsep : r * 2 ≤ d + 2 * pushDistance r d := by
    have hp : (r * 2 - d) * (3 / 4) ≤ pushDistance r d := hpush
    nlinarith
  have hkey : distSq (resolveBoatCollision r p1 p2 s1 s2 d).p1
      (resolveBoatCollision r p1 p2 s1 s2 d).p2 = (d + 2 * pushDistance r d) ^ 2 := by
    rcases eq_or_lt_of_le hd with hzero | hpos
    · -- coincident centers: atan2(0,0) = 0 pushes along the x axis
      have hsq0 : distSq p1 p2 = 0 := by rw [← hdist, ← hzero]; ring
      have hx : p2.x - p1.x = 0 := by
        have h1 : (p1.x - p2.x) ^ 2 + (p1.y - p2.y) ^ 2 = 0 := hsq0
        nlinarith [sq_nonneg (p1.x - p2.x), sq_nonneg (p1.y - p2.y)]
      have hy : p2.y - p1.y = 0 := by
        have h1 : (p1.x - p2.x) ^ 2 + (p1.y - p2.y) ^ 2 = 0 := hsq0
        nlinarith [sq_nonneg (p1.x - p2.x), sq_nonneg (p1.y - p2.y)]
      simp only [resolveBoatCollision, distSq, cosAtan2, sinAtan2, ← hzero,
        eq_self_iff_true, if_true]
      rw [show p1.x - 1 * pushDistance r 0 - (p2.x + 1 * pushDistance r 0) =
        (p1.x - p2.x) - 2 * pushDistance r 0 from by ring]
      rw [show p1.x - p2.x = 0 from by linarith [hx]]
      rw [show p1.y - 0 * pushDistance r 0 - (p2.y + 0 * pushDistance r 0) =
        p1.y - p2.y from by ring]
      rw [show p1.y - p2.y = 0 from by linarith [hy]]
      ring
    · have hne : d ≠ 0 := ne_of_gt hpos
      simp only [resolveBoatCollision, distSq, cosAtan2, sinAtan2, if_neg hne]
      have hexp : (p1.x - (p2.x - p1.x) / d * pushDistance r d -
            (p2.x + (p2.x - p1.x) / d * pushDistance r d)) ^ 2 +
          (p1.y - (p2.y - p1.y) / d * pushDistance r d -
            (p2.y + (p2.y - p1.y) / d * pushDistance r d)) ^ 2 =
          ((p1.x - p2.x) ^ 2 + (p1.y - p2.y) ^ 2) * ((d + 2 * pushDistance r d) / d) ^ 2 := by
        field_simp
        ring
      rw [hexp, show (p1.x - p2.x) ^ 2 + (p1.y - p2.y) ^ 2 = d * d from hdist.symm]
      field_simp
      ring
  refine ⟨hkey, hsep, ?_, rfl, rfl⟩
  rw [hkey]
  have h2r : (0 : ℚ) ≤ r * 2 := by linarith
  exact pow_le_pow_left₀ h2r hsep 2

/-- C5 witness: two unit-radius boats whose centers are 1 apart (overlap,
since the radius sum is 2) end up separated and damped. -/
theorem boat_collision_separates_witness :
    (0 : ℚ) < 1 ∧ (1 : ℚ) * 1 = distSq ⟨0, 0⟩ ⟨1, 0⟩ ∧ (1 : ℚ) < 1 * 2 ∧
      ((1 : ℚ) * 2) ^ 2 ≤
        distSq (resolveBoatCollision 1 ⟨0, 0⟩ ⟨1, 0⟩ 7 9 1).p1
          (resolveBoatCollision 1 ⟨0, 0⟩ ⟨1, 0⟩ 7 9 1).p2 :=
  ⟨by norm_num, by norm_num [distSq], by norm_num,
    (boat_collision_separates 1 ⟨0, 0⟩ ⟨1, 0⟩ 7 9 1 (by norm_num) (by norm_num)
      (by norm_num [distSq]) (by norm_num)).2.2.1⟩

/-- Helper for C8: the JavaScript remainder lies strictly between -360 and 360. -/
theorem jsMod360_bounds (x : ℚ) : -360 < jsMod360 x ∧ jsMod360 x < 360 := by
  unfold jsMod360 truncQ
  have h360 : (360 : ℚ) * (x / 360) = x := by
    field_simp
  split_ifs with hq
  · have h1 : ((⌊x / 360⌋ : ℚ)) ≤ x / 360 := Int.floor_le _
    have h2 : x / 360 < (⌊x / 360⌋ : ℚ) + 1 := Int.lt_floor_add_one _
    constructor <;> nlinarith
  · have h1 : x / 360 ≤ ((⌈x / 360⌉ : ℚ)) := Int.le_ceil _
    have h2 : ((⌈x / 360⌉ : ℚ)) < x / 360 + 1 := Int.ceil_lt_add_one _
    constructor <;> nlinarith

/-- Helper for C8: after the negative fixup the direction lies in `[0, 360)`. -/
theorem normalize360_bounds (nd : ℚ) (h : -360 < nd ∧ nd < 360) :
    0 ≤ normalize360 nd ∧ normalize360 nd < 360 := by
  unfold normalize360
  split_ifs with hneg
  · constructor <;> linarith [h.1, h.2]
  · exact ⟨not_lt.mp hneg, h.2⟩

/-- Helper for C8: the cap keeps any direction in `[0, 360)` inside the
legal band `[0, range] ∪ [360 - range, 360)`. -/
theorem capToRange_legal (range nd : ℚ) (hr : 0 < range) (h0 : 0 ≤ nd) (h1 : nd < 360) :
    legalWindDirection range (capToRange range nd) := by
  unfold capToRange legalWindDirection
  split_ifs with hz he hc hw
  · exact Or.inl ⟨le_refl _, hr.le⟩
  · exact Or.inl ⟨hr.le, le_refl _⟩
  · exact Or.inl ⟨he.1.le, not_lt.mp hc⟩
  · exact Or.inr ⟨le_refl _, by linarith⟩
  · -- not exactly north, not on the east side, not capped west: nd ∈ [360 - range, 360)
    push_neg at hz he hw
    rcases lt_or_le (180 : ℚ) nd with h180 | h180
    · exact Or.inr ⟨hw h1 h180, h1⟩
    · -- nd ≤ 180 with the east branch refused forces nd = 0, excluded here
      rcases lt_or_eq_of_le h0 with hlt | heq
      · exact absurd (he hlt) (not_lt.mpr h180)
      · exact absurd heq.symm hz.1

/-- C8: starting from any direction inside the legal band
`[0, range] ∪ [360 - range, 360)` of a venue with positive
`windDirectionRange`, the direction is still inside the band after any
number of `updateWindDirection` calls with arbitrary shift draws. -/
theorem wind_direction_containment (range dir : ℚ) (shifts : List ℚ)
    (hr : 0 < range) (hdir : legalWindDirection range dir) :
    legalWindDirection range (updateWindDirectionMany range dir shifts) := by
  induction shifts generalizing dir with
  | nil => exact hdir
  | cons sh t ih =>
    have hstep : legalWindDirection range (updateWindDirection range dir sh) := by
      unfold updateWindDirection
      have hb := normalize360_bounds _ (jsMod360_bounds (dir + sh))
      exact capToRange_legal range _ hr hb.1 hb.2
    exact ih _ hstep

/-- C8 witness: at the Newport Harbor range (20 degrees), a direction of 5
degrees hit by shifts of -7 and +100 degrees stays inside the legal band. -/
theorem wind_direction_containment_witness :
    (0 : ℚ) < 20 ∧ legalWindDirection 20 5 ∧
      legalWindDirection 20 (updateWindDirectionMany 20 5 [-7, 100]) :=
  ⟨by norm_num, by unfold legalWindDirection; norm_num,
    wind_direction_containment 20 5 [-7, 100] (by norm_num)
      (by unfold legalWindDirection; norm_num)⟩

/-- Helper: reading the stage just written for the same boat. -/
theorem getStage_setStage (s : RaceState) (b : BoatId) (st : RaceStage) :
    getStage (setStage s b st) b = st := by
  cases b <;> rfl

/-- Helper: writing one boat's stage leaves the other boats' stages alone. -/
theorem getStage_setStage_ne (s : RaceState) (b b' : BoatId) (st : RaceStage)
    (h : b' ≠ b) : getStage (setStage s b st) b' = getStage s b' := by
  cases b <;> cases b' <;> first | rfl | exact absurd rfl h

/-- Helper: writing a stage field does not touch the result list. -/
theorem results_setStage (s : RaceState) (b : BoatId) (st : RaceStage) :
    (setStage s b st).results = s.results := by
  cases b <;> rfl

/-- Helper: writing a stage field does not touch the phase. -/
theorem phase_setStage (s : RaceState) (b : BoatId) (st : RaceStage) :
    (setStage s b st).phase = s.phase := by
  cases b <;> rfl

/-- Helper: every stage index is at most the index of Finished. -/
theorem stageIdx_le_six (st : RaceStage) : stageIdx st ≤ 6 := by
  cases st <;> simp [stageIdx]

/-- Helper: on the premature path (known boat, no duplicate result, stage
strictly before Finish Leg) `finishRace` only sets the boat's stage. -/
theorem finishRace_premature_eq (boatId : BoatId) (time : ℚ) (s : RaceState) (boat : Boat)
    (hfind : s.boats.find? (fun b => b.id == boatId) = some boat)
    (hdup : s.results.any
      (fun r => r.userId == boat.userId && r.boatNumber == boatNumber boatId) = false)
    (hst1 : getStage s boatId ≠ .finishLeg) (hst2 : getStage s boatId ≠ .finished) :
    finishRace boatId time s = setStage s boatId .finished := by
  have hbool : (getStage s boatId == RaceStage.finishLeg ||
      getStage s boatId == RaceStage.finished) = false := by
    simp [hst1, hst2]
  simp only [finishRace, hfind, hdup, hbool, Bool.false_eq_true, if_false, Bool.not_false,
    if_true]

/-- Helper: on the recording path `finishRace` appends the new result,
re-sorts and re-ranks, sets the stage, and flips the phase exactly when
the new result count reaches the boat count. -/
theorem finishRace_record_eq (boatId : BoatId) (time : ℚ) (s : RaceState) (boat : Boat)
    (hfind : s.boats.find? (fun b => b.id == boatId) = some boat)
    (hdup : s.results.any
      (fun r => r.userId == boat.userId && r.boatNumber == boatNumber boatId) = false)
    (hstage : getStage s boatId = .finishLeg ∨ getStage s boatId = .finished) :
    finishRace boatId time s =
      (if s.results.length + 1 ≥ s.boats.length then
        { setStage s boatId .finished with
            results := assignPositions (sortResults (s.results ++
              [{ userId := boat.userId, username := boat.username, finishTime := time,
                 position := 0, boatNumber := boatNumber boatId }])),
            phase := .finished }
      else
        { setStage s boatId .finished with
            results := assignPositions (sortResults (s.results ++
              [{ userId := boat.userId, username := boat.username, finishTime := time,
                 position := 0, boatNumber := boatNumber boatId }])) }) := by
  have hbool : (getStage s boatId == RaceStage.finishLeg ||
      getStage s boatId == RaceStage.finished) = true := by
    rcases hstage with h | h <;> simp [h]
  simp only [finishRace, hfind, hdup, hbool, Bool.false_eq_true, if_false, Bool.not_true,
    if_true]

/-- Helper: `finishRace` on an unknown boat id is a no-op. -/
theorem finishRace_none_eq (boatId : BoatId) (time : ℚ) (s : RaceState)
    (hfind : s.boats.find? (fun b => b.id == boatId) = none) :
    finishRace boatId time s = s := by
  simp only [finishRace, hfind]

/-- Helper: `finishRace` on a boat that already holds a result is a no-op. -/
theorem finishRace_dup_eq (boatId : BoatId) (time : ℚ) (s : RaceState) (boat : Boat)
    (hfind : s.boats.find? (fun b => b.id == boatId) = some boat)
    (hdup : s.results.any
      (fun r => r.userId == boat.userId && r.boatNumber == boatNumber boatId) = true) :
    finishRace boatId time s = s := by
  simp only [finishRace, hfind, hdup, if_true]

/-- Helper: a result is appended by `finishRace` only from the recording
path, whose guard requires the boat's stage to be Finish Leg or Finished. -/
theorem finishRace_results_changed (s : RaceState) (boatId : BoatId) (time : ℚ)
    (hne : (finishRace boatId time s).results ≠ s.results) :
    getStage s boatId = RaceStage.finishLeg ∨ getStage s boatId = RaceStage.finished := by
  by_contra hcon
  push_neg at hcon
  cases hfind : s.boats.find? (fun b => b.id == boatId) with
  | none => rw [finishRace_none_eq boatId time s hfind] at hne; exact hne rfl
  | some boat =>
    by_cases hdup : s.results.any
        (fun r => r.userId == boat.userId && r.boatNumber == boatNumber boatId) = true
    · rw [finishRace_dup_eq boatId time s boat hfind hdup] at hne
      exact hne rfl
    · have hdupf : s.results.any
          (fun r => r.userId == boat.userId && r.boatNumber == boatNumber boatId) = false :=
        eq_false_of_ne_true hdup
      rw [finishRace_premature_eq boatId time s boat hfind hdupf hcon.1 hcon.2,
        results_setStage] at hne
      exact hne rfl

/-- C1 (amended): on a known boat that holds no prior result and whose
stage is strictly before Finish Leg, `finishRace` marks the boat Finished
while leaving the result list unchanged; and in general a result is only
ever appended when the boat's stage already was Finish Leg or Finished. -/
theorem finishRace_premature_no_result (boatId : BoatId) (time : ℚ) (s : RaceState)
    (boat : Boat)
    (hfind : s.boats.find? (fun b => b.id == boatId) = some boat)
    (hdup : s.results.any
      (fun r => r.userId == boat.userId && r.boatNumber == boatNumber boatId) = false)
    (hst1 : getStage s boatId ≠ RaceStage.finishLeg)
    (hst2 : getStage s boatId ≠ RaceStage.finished) :
    (finishRace boatId time s).results = s.results
    ∧ getStage (finishRace boatId time s) boatId = RaceStage.finished
    ∧ ∀ (s2 : RaceState) (id2 : BoatId) (t2 : ℚ),
        (finishRace id2 t2 s2).results ≠ s2.results →
          getStage s2 id2 = RaceStage.finishLeg ∨ getStage s2 id2 = RaceStage.finished := by
  rw [finishRace_premature_eq boatId time s boat hfind hdup hst1 hst2]
  exact ⟨results_setStage s boatId .finished, getStage_setStage s boatId .finished,
    finishRace_results_changed⟩

/-- Concrete state for the C1 witness: one known boat on its Start Leg,
empty result list. -/
def statePremature : RaceState :=
  { phase := .racing,
    boats := [{ id := .b1, userId := 1, username := "A" }],
    results := [],
    boat1Stage := .startLeg,
    boat2Stage := .notStarted,
    boat3Stage := .notStarted,
    boat4Stage := .notStarted }

/-- C1 (amended) witness: the premature finish of the Start Leg boat marks
it Finished and records nothing. -/
theorem finishRace_premature_no_result_witness :
    statePremature.boats.find? (fun b => b.id == BoatId.b1) =
        some { id := .b1, userId := 1, username := "A" }
    ∧ (finishRace .b1 100 statePremature).results = statePremature.results
    ∧ getStage (finishRace .b1 100 statePremature) .b1 = RaceStage.finished :=
  ⟨rfl,
    (finishRace_premature_no_result .b1 100 statePremature
      { id := .b1, userId := 1, username := "A" } rfl rfl
      (by decide) (by decide)).1,
    (finishRace_premature_no_result .b1 100 statePremature
      { id := .b1, userId := 1, username := "A" } rfl rfl
      (by decide) (by decide)).2.1⟩

/-- Concrete state for the C1 counterexample: the known boat is on its
Start Leg yet already holds a recorded result. -/
def stateDuplicate : RaceState :=
  { phase := .racing,
    boats := [{ id := .b1, userId := 1, username := "A" }],
    results := [{ userId := 1, username := "A", finishTime := 100, position := 1,
                  boatNumber := 1 }],
    boat1Stage := .startLeg,
    boat2Stage := .notStarted,
    boat3Stage := .notStarted,
    boat4Stage := .notStarted }

/-- C1 counterexample: calling `finishRace` on a known boat whose stage is
neither Finish Leg nor Finished but which already holds a result is a
complete no-op — the duplicate guard fires first, so the stage is NOT set
to Finished, contradicting the claim for this call. -/
theorem finishRace_premature_counterexample :
    (stateDuplicate.boats.find? (fun b => b.id == BoatId.b1)).isSome = true
    ∧ stateDuplicate.boat1Stage ≠ RaceStage.finishLeg
    ∧ stateDuplicate.boat1Stage ≠ RaceStage.finished
    ∧ finishRace .b1 200 stateDuplicate = stateDuplicate
    ∧ (finishRace .b1 200 stateDuplicate).boat1Stage ≠ RaceStage.finished :=
  ⟨rfl, by decide, by decide, rfl, by decide⟩

/-- Helper: position reassignment preserves list length. -/
theorem length_assignPositionsFrom (n : Nat) (l : List RaceResult) :
    (assignPositionsFrom n l).length = l.length := by
  induction l generalizing n with
  | nil => rfl
  | cons r rs ih => simp [assignPositionsFrom, ih]

/-- Helper: sorting preserves list length. -/
theorem length_sortResults (l : List RaceResult) :
    (sortResults l).length = l.length :=
  (List.perm_insertionSort resultLE l).length_eq

/-- Helper: the result list produced by the recording path of `finishRace`. -/
theorem finishRace_record_results (boatId : BoatId) (time : ℚ) (s : RaceState) (boat : Boat)
    (hfind : s.boats.find? (fun b => b.id == boatId) = some boat)
    (hdup : s.results.any
      (fun r => r.userId == boat.userId && r.boatNumber == boatNumber boatId) = false)
    (hstage : getStage s boatId = .finishLeg ∨ getStage s boatId = .finished) :
    (finishRace boatId time s).results =
      assignPositions (sortResults (s.results ++
        [{ userId := boat.userId, username := boat.username, finishTime := time,
           position := 0, boatNumber := boatNumber boatId }])) := by
  rw [finishRace_record_eq boatId time s boat hfind hdup hstage]
  split_ifs <;> rfl

/-- C7: on the recording path `finishRace` grows the result list by one and
sets the global phase to finished exactly when that new result count has
reached the number of boats in the race; otherwise the phase stays racing,
and any call that inserts no result leaves the phase untouched. -/
theorem finishRace_phase_flip (boatId : BoatId) (time : ℚ) (s : RaceState) (boat : Boat)
    (hfind : s.boats.find? (fun b => b.id == boatId) = some boat)
    (hdup : s.results.any
      (fun r => r.userId == boat.userId && r.boatNumber == boatNumber boatId) = false)
    (hstage : getStage s boatId = .finishLeg ∨ getStage s boatId = .finished)
    (hphase : s.phase = RacePhase.racing) :
    ((finishRace boatId time s).phase = RacePhase.finished ↔
      s.boats.length ≤ s.results.length + 1)
    ∧ (finishRace boatId time s).results.length = s.results.length + 1
    ∧ ∀ (s2 : RaceState) (id2 : BoatId) (t2 : ℚ),
        (finishRace id2 t2 s2).results = s2.results →
          (finishRace id2 t2 s2).phase = s2.phase := by
  refine ⟨?_, ?_, ?_⟩
  · rw [finishRace_record_eq boatId time s boat hfind hdup hstage]
    split_ifs with hc
    · exact iff_of_true rfl hc
    · refine iff_of_false ?_ hc
      show (setStage s boatId RaceStage.finished).phase ≠ RacePhase.finished
      rw [phase_setStage, hphase]
      decide
  · rw [finishRace_record_results boatId time s boat hfind hdup hstage, assignPositions,
      length_assignPositionsFrom, length_sortResults, List.length_append, List.length_cons,
      List.length_nil]
  · intro s2 id2 t2 heq
    cases hfind2 : s2.boats.find? (fun b => b.id == id2) with
    | none => rw [finishRace_none_eq id2 t2 s2 hfind2]
    | some boat2 =>
      by_cases hdup2 : s2.results.any
          (fun r => r.userId == boat2.userId && r.boatNumber == boatNumber id2) = true
      · rw [finishRace_dup_eq id2 t2 s2 boat2 hfind2 hdup2]
      · have hdupf2 : s2.results.any
            (fun r => r.userId == boat2.userId && r.boatNumber == boatNumber id2) = false :=
          eq_false_of_ne_true hdup2
        by_cases hstage2 : getStage s2 id2 = RaceStage.finishLeg ∨
            getStage s2 id2 = RaceStage.finished
        · exfalso
          rw [finishRace_record_results id2 t2 s2 boat2 hfind2 hdupf2 hstage2] at heq
          have hlen := congrArg List.length heq
          rw [assignPositions, length_assignPositionsFrom, length_sortResults,
            List.length_append, List.length_cons, List.length_nil] at hlen
          omega
        · push_neg at hstage2
          rw [finishRace_premature_eq id2 t2 s2 boat2 hfind2 hdupf2 hstage2.1 hstage2.2]
          exact phase_setStage s2 id2 .finished

/-- Concrete state for the C7 witness: two boats, no result yet, boat 1 on
the Finish Leg, global phase racing. -/
def stateTwoBoats : RaceState :=
  { phase := .racing,
    boats := [{ id := .b1, userId := 1, username := "A" },
              { id := .b2, userId := 1, username := "B" }],
    results := [],
    boat1Stage := .finishLeg,
    boat2Stage := .startLeg,
    boat3Stage := .notStarted,
    boat4Stage := .notStarted }

/-- C7 witness: with two boats and only one recorded result the phase flip
test is `2 ≤ 1`, so the race stays in the racing phase. -/
theorem finishRace_phase_flip_witness :
    ((finishRace .b1 90 stateTwoBoats).phase = RacePhase.finished ↔
      stateTwoBoats.boats.length ≤ stateTwoBoats.results.length + 1)
    ∧ ¬ stateTwoBoats.boats.length ≤ stateTwoBoats.results.length + 1
    ∧ (finishRace .b1 90 stateTwoBoats).results.length = stateTwoBoats.results.length + 1 := by
  have h := finishRace_phase_flip .b1 90 stateTwoBoats
    { id := .b1, userId := 1, username := "A" } rfl rfl (Or.inl rfl) rfl
  exact ⟨h.1, by decide, h.2.1⟩

/-- Helper: the positions written by `assignPositionsFrom n` are the
consecutive naturals starting at `n`. -/
theorem assignPositionsFrom_map_position (n : Nat) (l : List RaceResult) :
    (assignPositionsFrom n l).map (fun r => r.position) = List.range' n l.length := by
  induction l generalizing n with
  | nil => rfl
  | cons r rs ih => simp [assignPositionsFrom, List.range'_succ, ih]

/-- Helper: position reassignment does not change the finish times, in
order. -/
theorem assignPositionsFrom_map_time (n : Nat) (l : List RaceResult) :
    (assignPositionsFrom n l).map (fun r => r.finishTime) =
      l.map (fun r => r.finishTime) := by
  induction l generalizing n with
  | nil => rfl
  | cons r rs ih => simp [assignPositionsFrom, ih]

/-- Helper: the finish time of any reassigned result occurs among the
original finish times. -/
theorem mem_assignPositionsFrom_time {a : RaceResult} {n : Nat} {l : List RaceResult}
    (h : a ∈ assignPositionsFrom n l) :
    a.finishTime ∈ l.map (fun r => r.finishTime) := by
  have hm : a.finishTime ∈ (assignPositionsFrom n l).map (fun r => r.finishTime) :=
    List.mem_map_of_mem _ h
  rwa [assignPositionsFrom_map_time] at hm

/-- Helper: position reassignment preserves sortedness by finish time. -/
theorem assignPositionsFrom_sorted (n : Nat) {l : List RaceResult}
    (h : List.Sorted resultLE l) :
    List.Sorted resultLE (assignPositionsFrom n l) := by
  induction l generalizing n with
  | nil => exact List.sorted_nil
  | cons r rs ih =>
    rw [List.sorted_cons] at h
    show List.Sorted resultLE ({ r with position := n } :: assignPositionsFrom (n + 1) rs)
    rw [List.sorted_cons]
    refine ⟨?_, ih (n + 1) h.2⟩
    intro b hb
    obtain ⟨c, hc, hct⟩ := List.mem_map.mp (mem_assignPositionsFrom_time hb)
    show r.finishTime ≤ b.finishTime
    rw [← hct]
    exact h.1 c hc

/-- Helper: every position written by `assignPositionsFrom n` is at least `n`. -/
theorem assignPositionsFrom_pos_ge {a : RaceResult} (n : Nat) {l : List RaceResult}
    (h : a ∈ assignPositionsFrom n l) : n ≤ a.position := by
  induction l generalizing n with
  | nil => cases h
  | cons r rs ih =>
    rcases List.mem_cons.mp h with h1 | h2
    · rw [h1]
    · exact le_trans (Nat.le_succ n) (ih (n + 1) h2)

/-- Helper: in a reassigned sorted list, smaller position means smaller or
equal finish time. -/
theorem assignPositionsFrom_pos_mono (n : Nat) {l : List RaceResult}
    (h : List.Sorted resultLE l) :
    ∀ a ∈ assignPositionsFrom n l, ∀ b ∈ assignPositionsFrom n l,
      a.position ≤ b.position → a.finishTime ≤ b.finishTime := by
  induction l generalizing n with
  | nil => intro a ha; cases ha
  | cons r rs ih =>
    rw [List.sorted_cons] at h
    intro a ha b hb hab
    rcases List.mem_cons.mp ha with ha1 | ha2
    · rcases List.mem_cons.mp hb with hb1 | hb2
      · rw [ha1, hb1]
      · obtain ⟨c, hc, hct⟩ := List.mem_map.mp (mem_assignPositionsFrom_time hb2)
        rw [ha1]
        show r.finishTime ≤ b.finishTime
        rw [← hct]
        exact h.1 c hc
    · rcases List.mem_cons.mp hb with hb1 | hb2
      · have hge : n + 1 ≤ a.position := assignPositionsFrom_pos_ge (n + 1) ha2
        have hbn : b.position = n := by rw [hb1]
        omega
      · exact ih (n + 1) h.2 a ha2 b hb2 hab

/-- C6: after a recording `finishRace` call the result list is sorted by
finish time ascending and its positions are exactly the 1-based ranks
1..N in that order — no duplicates, no gaps, and smaller rank always means
smaller or equal finish time (rank 1 holds the smallest). -/
theorem finishRace_ranked_results (boatId : BoatId) (time : ℚ) (s : RaceState) (boat : Boat)
    (hfind : s.boats.find? (fun b => b.id == boatId) = some boat)
    (hdup : s.results.any
      (fun r => r.userId == boat.userId && r.boatNumber == boatNumber boatId) = false)
    (hstage : getStage s boatId = .finishLeg ∨ getStage s boatId = .finished) :
    (finishRace boatId time s).results.map (fun r => r.position) =
        List.range' 1 (s.results.length + 1)
    ∧ List.Sorted resultLE (finishRace boatId time s).results
    ∧ ∀ a ∈ (finishRace boatId time s).results, ∀ b ∈ (finishRace boatId time s).results,
        a.position ≤ b.position → a.finishTime ≤ b.finishTime := by
  rw [finishRace_record_results boatId time s boat hfind hdup hstage]
  have hsorted : List.Sorted resultLE (sortResults (s.results ++
      [{ userId := boat.userId, username := boat.username, finishTime := time,
         position := 0, boatNumber := boatNumber boatId }])) :=
    List.sorted_insertionSort resultLE _
  refine ⟨?_, assignPositionsFrom_sorted 1 hsorted, assignPositionsFrom_pos_mono 1 hsorted⟩
  rw [assignPositions, assignPositionsFrom_map_position, length_sortResults,
    List.length_append, List.length_cons, List.length_nil]

/-- Concrete state for the C6 witness: one earlier result (time 50), and
boat 1 finishing legitimately with the faster time 30. -/
def stateOneResult : RaceState :=
  { phase := .racing,
    boats := [{ id := .b1, userId := 1, username := "A" },
              { id := .b2, userId := 1, username := "B" }],
    results := [{ userId := 1, username := "B", finishTime := 50, position := 1,
                  boatNumber := 2 }],
    boat1Stage := .finishLeg,
    boat2Stage := .finished,
    boat3Stage := .notStarted,
    boat4Stage := .notStarted }

/-- C6 witness: recording the second finish re-ranks the two results as
positions 1 and 2. -/
theorem finishRace_ranked_results_witness :
    stateOneResult.boats.find? (fun b => b.id == BoatId.b1) =
        some { id := .b1, userId := 1, username := "A" }
    ∧ (finishRace .b1 30 stateOneResult).results.map (fun r => r.position) =
        List.range' 1 (stateOneResult.results.length + 1) :=
  ⟨rfl,
    (finishRace_ranked_results .b1 30 stateOneResult
      { id := .b1, userId := 1, username := "A" } rfl rfl (Or.inl rfl)).1⟩

/-- Helper: a stage index never exceeds the index of its successor. -/
theorem stageIdx_le_succStage (st : RaceStage) : stageIdx st ≤ stageIdx (succStage st) := by
  cases st <;> simp [stageIdx, succStage]

/-- Helper: one stage-transition tick either keeps the stage, advances it
to the immediate successor when the corresponding geometric predicate
fires, or — only from Not Started — force-sets Start Leg and can then
additionally cross the start line within the same tick. -/
theorem stageTick_shape (r : ℚ) (line : StartLine) (topMark bottomMark : Mark)
    (pos : Point) (rot : ℚ) (fRef : Bool) (st : RaceStage) :
    stageTick r line topMark bottomMark pos rot fRef st = st ∨
    stageTick r line topMark bottomMark pos rot fRef st = succStage st ∨
    (st = RaceStage.notStarted ∧
      stageTick r line topMark bottomMark pos rot fRef st =
        succStage (succStage st)) := by
  cases st <;> simp only [stageTick, succStage] <;> split_ifs <;> simp_all

/-- Helper: the stage index never decreases across a single tick. -/
theorem stageIdx_le_stageTick (r : ℚ) (line : StartLine) (topMark bottomMark : Mark)
    (pos : Point) (rot : ℚ) (fRef : Bool) (st : RaceStage) :
    stageIdx st ≤ stageIdx (stageTick r line topMark bottomMark pos rot fRef st) := by
  rcases stageTick_shape r line topMark bottomMark pos rot fRef st with h | h | ⟨h0, h⟩
  · rw [h]
  · rw [h]; exact stageIdx_le_succStage st
  · rw [h, h0]; decide

/-- Helper: reading a stage through a results-field update. -/
theorem getStage_update_results (s1 : RaceState) (rs : List RaceResult) (b : BoatId) :
    getStage { s1 with results := rs } b = getStage s1 b := by
  cases b <;> rfl

/-- Helper: reading a stage through a results-and-phase update. -/
theorem getStage_update_results_phase (s1 : RaceState) (rs : List RaceResult)
    (ph : RacePhase) (b : BoatId) :
    getStage { s1 with results := rs, phase := ph } b = getStage s1 b := by
  cases b <;> rfl

/-- Helper: `finishRace` either leaves a boat's stage unchanged or sets it
to Finished. -/
theorem getStage_finishRace_cases (boatId : BoatId) (time : ℚ) (s : RaceState) (b : BoatId) :
    getStage (finishRace boatId time s) b = getStage s b ∨
      getStage (finishRace boatId time s) b = RaceStage.finished := by
  cases hfind : s.boats.find? (fun bb => bb.id == boatId) with
  | none => rw [finishRace_none_eq boatId time s hfind]; exact Or.inl rfl
  | some boat =>
    by_cases hdup : s.results.any
        (fun rr => rr.userId == boat.userId && rr.boatNumber == boatNumber boatId) = true
    · rw [finishRace_dup_eq boatId time s boat hfind hdup]; exact Or.inl rfl
    · have hdupf : s.results.any
          (fun rr => rr.userId == boat.userId && rr.boatNumber == boatNumber boatId) = false :=
        eq_false_of_ne_true hdup
      by_cases hstage : getStage s boatId = RaceStage.finishLeg ∨
          getStage s boatId = RaceStage.finished
      · rw [finishRace_record_eq boatId time s boat hfind hdupf hstage]
        split_ifs
        · by_cases hb : b = boatId
          · subst hb
            rw [getStage_update_results_phase, getStage_setStage]
            exact Or.inr rfl
          · rw [getStage_update_results_phase, getStage_setStage_ne s boatId b _ hb]
            exact Or.inl rfl
        · by_cases hb : b = boatId
          · subst hb
            rw [getStage_update_results, getStage_setStage]
            exact Or.inr rfl
          · rw [getStage_update_results, getStage_setStage_ne s boatId b _ hb]
            exact Or.inl rfl
      · push_neg at hstage
        rw [finishRace_premature_eq boatId time s boat hfind hdupf hstage.1 hstage.2]
        by_cases hb : b = boatId
        · subst hb
          rw [getStage_setStage]
          exact Or.inr rfl
        · rw [getStage_setStage_ne s boatId b _ hb]
          exact Or.inl rfl

/-- Helper: stage indices never decrease across a `finishRace` call. -/
theorem stageIdx_le_finishRace (boatId : BoatId) (time : ℚ) (s : RaceState) (b : BoatId) :
    stageIdx (getStage s b) ≤ stageIdx (getStage (finishRace boatId time s) b) := by
  rcases getStage_finishRace_cases boatId time s b with h | h <;> rw [h]
  exact stageIdx_le_six _

/-- Helper: stage indices never decrease across any single event. -/
theorem stageIdx_le_applyEvent (s : RaceState) (e : RaceEvent) (b : BoatId) :
    stageIdx (getStage s b) ≤ stageIdx (getStage (applyEvent s e) b) := by
  cases e with
  | tick b0 r line topMark bottomMark pos rot fRef =>
    by_cases hb : b = b0
    · subst hb
      show stageIdx (getStage s b) ≤
        stageIdx (getStage (setStage s b
          (stageTick r line topMark bottomMark pos rot fRef (getStage s b))) b)
      rw [getStage_setStage]
      exact stageIdx_le_stageTick r line topMark bottomMark pos rot fRef _
    · show stageIdx (getStage s b) ≤
        stageIdx (getStage (setStage s b0
          (stageTick r line topMark bottomMark pos rot fRef (getStage s b0))) b)
      rw [getStage_setStage_ne s b0 b _ hb]
  | finish b0 t => exact stageIdx_le_finishRace b0 t s b

/-- C2: across every sequence of per-tick stage-transition checks and
`finishRace` calls, each boat's stage index (Not Started = 0 … Finished = 6)
is non-decreasing; moreover a single tick advances a stage only to its
immediate successor when its predicate fires (with the automatic
Not Started → Start Leg force-set possibly composing with the start-line
check in the same tick). -/
theorem race_stage_monotone :
    (∀ (s : RaceState) (evs : List RaceEvent) (b : BoatId),
        stageIdx (getStage s b) ≤ stageIdx (getStage (evs.foldl applyEvent s) b))
    ∧ (∀ (r : ℚ) (line : StartLine) (topMark bottomMark : Mark) (pos : Point) (rot : ℚ)
        (fRef : Bool) (st : RaceStage),
        stageTick r line topMark bottomMark pos rot fRef st = st ∨
        stageTick r line topMark bottomMark pos rot fRef st = succStage st ∨
        (st = RaceStage.notStarted ∧
          stageTick r line topMark bottomMark pos rot fRef st =
            succStage (succStage st))) := by
  constructor
  · intro s evs
    induction evs generalizing s with
    | nil => intro b; exact le_refl _
    | cons e t ih =>
      intro b
      rw [List.foldl_cons]
      exact le_trans (stageIdx_le_applyEvent s e b) (ih (applyEvent s e) b)
  · exact stageTick_shape
